import Mathlib

/-!
Verification development for the mcp-task-editor persistence layer
(`TasksDataService`, file `src/services/tasksDataService.ts`) and its data
model (`src/types`, Zod schemas in `src/schemas/validation`).

Modelling conventions (shallow embedding):
* JavaScript strings are Lean `String`s; `localeCompare`-based ordering is
  modelled by the codepoint-lexicographic order on `String` (equivalent on
  the ASCII file names involved).
* The SHA-256 digest of `calculateChecksum` is modelled as an injective
  fingerprint of the hashed text: collisions of SHA-256 are not modelled,
  so two checksums are equal exactly when the hashed texts are equal.
* File contents are modelled by `FileData`: blank text, unparseable text,
  or a serialized JSON value together with its formatting (`JSON.stringify`
  with the `null, 2` pretty-printing arguments versus the compact one); two
  serializations of the same value with different formatting are different
  texts, hence different checksums.
* Parsed JSON values are modelled by `Json`: either a structurally
  well-typed document or an opaque non-document value (`Json.other`); the
  Zod `TasksDataSchema.parse` succeeds exactly on well-typed documents
  whose field constraints hold (`validDoc`).
* JavaScript number arithmetic in the summary percentages is modelled as
  exact rational arithmetic, and `Math.round` as `round : ℚ → ℤ`
  (round half toward positive infinity), its documented behaviour.
* Object spread `{ a : x, ...o }` is modelled field by field: a field
  present in `o` wins over the textually earlier `a`.
-/

namespace TaskEditor

/-- Task record, from `interface Task` in `src/types/index.ts`. -/
structure Task where
  id : String
  title : String
  description : String
  done : Bool
  approved : Bool
  completedDetails : String
  deriving Repr, DecidableEq

/-- Request record, from `interface Request` in `src/types/index.ts`. -/
structure Request where
  requestId : String
  originalRequest : String
  splitDetails : String
  tasks : List Task
  completed : Bool
  deriving Repr, DecidableEq

/-- Root document, from `interface TasksData` in `src/types/index.ts`. -/
structure TasksData where
  requests : List Request
  deriving Repr, DecidableEq

/-- Summary returned by `getAllRequests`, from `interface RequestSummary`.
Percentages are integers produced by `Math.round`. -/
structure RequestSummary where
  requestId : String
  originalRequest : String
  totalTasks : Nat
  completedTasks : Nat
  approvedTasks : Nat
  completionPercentage : Int
  approvalPercentage : Int
  completed : Bool
  deriving Repr, DecidableEq

/-- Zod `TaskSchema` (`src/schemas/validation`): `id` min length 1, `title`
min 1 and max 200, `description` min 1, `completedDetails` any string. -/
def validTask (t : Task) : Bool :=
  decide (1 ≤ t.id.length) && decide (1 ≤ t.title.length) &&
    decide (t.title.length ≤ 200) && decide (1 ≤ t.description.length)

/-- Zod `RequestSchema`: `requestId` min 1, `originalRequest` min 1,
`splitDetails` any string, `tasks` an array of valid tasks. -/
def validRequest (r : Request) : Bool :=
  decide (1 ≤ r.requestId.length) && decide (1 ≤ r.originalRequest.length) &&
    r.tasks.all validTask

/-- Zod `TasksDataSchema`: an array of valid requests. -/
def validDoc (d : TasksData) : Bool :=
  d.requests.all validRequest

/-- Errors thrown by the service: `ApiError(message, status)` from
`src/types`, a plain JavaScript `Error`, or a Zod validation error. -/
inductive Err where
  | api (msg : String) (status : Nat)
  | jsError (msg : String)
  | validationFailed
  deriving Repr, DecidableEq

deriving instance DecidableEq for Except

/-! ### Decimal rendering of numeric id suffixes

The template literals producing the ids, such as the expression
req-(dollar)(newId) in `createRequest`, render a JavaScript number in
decimal.  `showNat` is that decimal rendering for naturals. -/

/-- Little-endian decimal digit list of a natural number (empty for 0). -/
def toDigitsRev : Nat → List Nat
  | 0 => []
  | n + 1 => ((n + 1) % 10) :: toDigitsRev ((n + 1) / 10)
decreasing_by exact Nat.div_lt_self (Nat.succ_pos n) (by omega)

/-- Decimal rendering of a natural number, the model of JavaScript
number-to-string conversion for the nonnegative integers used as id
suffixes. -/
def showNat (n : Nat) : String :=
  if n = 0 then "0" else String.mk ((toDigitsRev n).reverse.map Nat.digitChar)

/-- Value of a little-endian digit list. -/
def ofDigitsRev : List Nat → Nat
  | [] => 0
  | d :: ds => d + 10 * ofDigitsRev ds

theorem ofDigitsRev_toDigitsRev : ∀ n, ofDigitsRev (toDigitsRev n) = n := by
  intro n
  induction n using Nat.strong_induction_on with
  | _ n ih =>
    match n with
    | 0 => simp [toDigitsRev, ofDigitsRev]
    | m + 1 =>
      rw [toDigitsRev, ofDigitsRev,
        ih ((m + 1) / 10) (Nat.div_lt_self (Nat.succ_pos m) (by omega))]
      exact Nat.mod_add_div (m + 1) 10

theorem toDigitsRev_injective : Function.Injective toDigitsRev := by
  intro a b h
  have := congrArg ofDigitsRev h
  rwa [ofDigitsRev_toDigitsRev, ofDigitsRev_toDigitsRev] at this

theorem toDigitsRev_lt_ten : ∀ n, ∀ d ∈ toDigitsRev n, d < 10 := by
  intro n
  induction n using Nat.strong_induction_on with
  | _ n ih =>
    match n with
    | 0 => simp [toDigitsRev]
    | m + 1 =>
      rw [toDigitsRev]
      intro d hd
      rcases List.mem_cons.mp hd with h | h
      · subst h; exact Nat.mod_lt _ (by omega)
      · exact ih ((m + 1) / 10) (Nat.div_lt_self (Nat.succ_pos m) (by omega)) d h

theorem digitChar_inj_lt : ∀ d < 10, ∀ e < 10, Nat.digitChar d = Nat.digitChar e → d = e := by
  decide

theorem map_digitChar_inj :
    ∀ (xs ys : List Nat), (∀ d ∈ xs, d < 10) → (∀ d ∈ ys, d < 10) →
      xs.map Nat.digitChar = ys.map Nat.digitChar → xs = ys := by
  intro xs
  induction xs with
  | nil => intro ys _ _ h; cases ys <;> simp_all
  | cons x xs ih =>
    intro ys hx hy h
    cases ys with
    | nil => simp at h
    | cons y ys =>
      simp only [List.map_cons, List.cons.injEq] at h
      have hxy : x = y :=
        digitChar_inj_lt x (hx x (by simp)) y (hy y (by simp)) h.1
      have : xs = ys :=
        ih ys (fun d hd => hx d (by simp [hd])) (fun d hd => hy d (by simp [hd])) h.2
      simp [hxy, this]

theorem string_mk_inj {a b : List Char} (h : String.mk a = String.mk b) : a = b :=
  congrArg String.data h

theorem showNat_injective : Function.Injective showNat := by
  intro a b h
  unfold showNat at h
  by_cases ha : a = 0 <;> by_cases hb : b = 0
  · omega
  · exfalso
    rw [if_pos ha, if_neg hb] at h
    have hd := (string_mk_inj h.symm)
    have hlt := toDigitsRev_lt_ten b
    have : (toDigitsRev b).reverse.map Nat.digitChar = [Nat.digitChar 0] := by
      simpa using hd
    have : (toDigitsRev b).reverse = [0] :=
      map_digitChar_inj _ [0] (by intro d hd'; exact hlt d (List.mem_reverse.mp hd'))
        (by simp) (by simpa using this)
    have hb0 : toDigitsRev b = [0] := by
      have := congrArg List.reverse this
      simpa using this
    have := ofDigitsRev_toDigitsRev b
    rw [hb0] at this
    simp [ofDigitsRev] at this
    omega
  · exfalso
    rw [if_neg ha, if_pos hb] at h
    have hd := (string_mk_inj h)
    have hlt := toDigitsRev_lt_ten a
    have : (toDigitsRev a).reverse.map Nat.digitChar = [Nat.digitChar 0] := by
      simpa using hd
    have : (toDigitsRev a).reverse = [0] :=
      map_digitChar_inj _ [0] (by intro d hd'; exact hlt d (List.mem_reverse.mp hd'))
        (by simp) (by simpa using this)
    have ha0 : toDigitsRev a = [0] := by
      have := congrArg List.reverse this
      simpa using this
    have := ofDigitsRev_toDigitsRev a
    rw [ha0] at this
    simp [ofDigitsRev] at this
    omega
  · rw [if_neg ha, if_neg hb] at h
    have hd := string_mk_inj h
    have : (toDigitsRev a).reverse = (toDigitsRev b).reverse :=
      map_digitChar_inj _ _
        (fun d hd' => toDigitsRev_lt_ten a d (List.mem_reverse.mp hd'))
        (fun d hd' => toDigitsRev_lt_ten b d (List.mem_reverse.mp hd')) hd
    exact toDigitsRev_injective (List.reverse_injective this)

theorem string_append_left_cancel {s a b : String} (h : s ++ a = s ++ b) : a = b := by
  have hd := congrArg String.data h
  rw [String.data_append, String.data_append] at hd
  have h2 := List.append_cancel_left hd
  exact congrArg String.mk h2

/-! ### Lowest-free numeric id generation

`createRequest` and `createTask` both run the loop

  let newId = 1; while (existingIds.includes(tag + newId)) newId++;

over the sibling ids.  The loop is modelled with explicit fuel; with fuel
`existingIds.length + 1` the loop always terminates on a free id
(pigeonhole), which the lemmas below establish. -/

/-- One fuelled unfolding of the id-search loop of `createRequest` /
`createTask`: starting at candidate `n`, return the first `m ≥ n` such
that `tag ++ showNat m` is not among `existing` (searching at most `fuel`
candidates). -/
def lowestFreeLoop (existing : List String) (tag : String) : Nat → Nat → Nat
  | 0, n => n
  | fuel + 1, n =>
    if (tag ++ showNat n) ∈ existing then lowestFreeLoop existing tag fuel (n + 1) else n

/-- The id number chosen by the generation loop, starting at 1. -/
def lowestFree (existing : List String) (tag : String) : Nat :=
  lowestFreeLoop existing tag (existing.length + 1) 1

theorem lowestFreeLoop_spec (existing : List String) (tag : String) :
    ∀ fuel n, (∃ k, k < fuel ∧ (tag ++ showNat (n + k)) ∉ existing) →
      (tag ++ showNat (lowestFreeLoop existing tag fuel n)) ∉ existing ∧
        n ≤ lowestFreeLoop existing tag fuel n ∧
        ∀ m, n ≤ m → m < lowestFreeLoop existing tag fuel n →
          (tag ++ showNat m) ∈ existing := by
  intro fuel
  induction fuel with
  | zero => intro n ⟨k, hk, _⟩; omega
  | succ fuel ih =>
    intro n ⟨k, hk, hfree⟩
    rw [lowestFreeLoop]
    by_cases hmem : (tag ++ showNat n) ∈ existing
    · rw [if_pos hmem]
      have hk0 : k ≠ 0 := by rintro rfl; simp at hfree; exact hfree hmem
      obtain ⟨k', rfl⟩ : ∃ k', k = k' + 1 := ⟨k - 1, by omega⟩
      have hrec := ih (n + 1) ⟨k', by omega, by
        have : n + 1 + k' = n + (k' + 1) := by omega
        rw [this]; exact hfree⟩
      refine ⟨hrec.1, by omega, ?_⟩
      intro m hm hm'
      by_cases hmn : m = n
      · subst hmn; exact hmem
      · exact hrec.2.2 m (by omega) hm'
    · rw [if_neg hmem]
      exact ⟨hmem, le_refl n, fun m hm hm' => by omega⟩

theorem exists_free_in_range (existing : List String) (tag : String) :
    ∃ k, k < existing.length + 1 ∧ (tag ++ showNat (1 + k)) ∉ existing := by
  by_contra hcon
  push_neg at hcon
  set f : Nat → String := fun k => tag ++ showNat (1 + k) with hf
  have hinj : Function.Injective f := by
    intro x y hxy
    have := string_append_left_cancel hxy
    have := showNat_injective this
    omega
  have hnodup : ((List.range (existing.length + 1)).map f).Nodup :=
    (List.nodup_range _).map hinj
  have hsub : ((List.range (existing.length + 1)).map f) ⊆ existing := by
    intro x hx
    obtain ⟨k, hk, rfl⟩ := List.mem_map.mp hx
    exact hcon k (List.mem_range.mp hk)
  have := (hnodup.subperm hsub).length_le
  simp only [List.length_map, List.length_range] at this
  omega

/-- The generated id number is the smallest positive `N` such that
`tag ++ showNat N` is unused. -/
theorem lowestFree_spec (existing : List String) (tag : String) :
    (tag ++ showNat (lowestFree existing tag)) ∉ existing ∧
      1 ≤ lowestFree existing tag ∧
      ∀ m, 1 ≤ m → m < lowestFree existing tag → (tag ++ showNat m) ∈ existing := by
  obtain ⟨k, hk, hfree⟩ := exists_free_in_range existing tag
  exact lowestFreeLoop_spec existing tag (existing.length + 1) 1 ⟨k, hk, hfree⟩

/-! ### CRUD operations on the loaded document

Each service method has the shape: load the document, mutate it, persist
it.  The definitions below are the mutation cores of the methods of
`TasksDataService`, acting on the loaded `TasksData`; the load and persist
steps are modelled by `loadData` / `saveData` on the file-system state and
composed in the service-level wrappers further down. -/

/-- Runtime argument object of `createRequest` (typed
`Omit<Request, 'requestId'>`, but at runtime it may carry a `requestId`
property, which the spread `{ requestId: ..., ...requestData }` lets
override the generated one). -/
structure RequestInput where
  requestId? : Option String
  originalRequest : String
  splitDetails : String
  tasks : List Task
  completed : Bool
  deriving Repr, DecidableEq

/-- Runtime argument object of `createTask` (typed `Omit<Task, 'id'>`). -/
structure TaskInput where
  id? : Option String
  title : String
  description : String
  done : Bool
  approved : Bool
  completedDetails : String
  deriving Repr, DecidableEq

/-- Runtime argument object of `updateRequest` (`Partial<Request>`): every
field optionally present.  A field explicitly set to `undefined` is not
modelled (the route handlers obtain updates from parsed JSON, which has no
`undefined`). -/
structure RequestUpdates where
  requestId? : Option String
  originalRequest? : Option String
  splitDetails? : Option String
  tasks? : Option (List Task)
  completed? : Option Bool
  deriving Repr, DecidableEq

/-- Runtime argument object of `updateTask` (`Partial<Task>`). -/
structure TaskUpdates where
  id? : Option String
  title? : Option String
  description? : Option String
  done? : Option Bool
  approved? : Option Bool
  completedDetails? : Option String
  deriving Repr, DecidableEq

/-- The spread merge of `updateRequest`:
`{ ...data.requests[requestIndex], ...updates }`. -/
def mergeRequest (old : Request) (updates : RequestUpdates) : Request where
  requestId := updates.requestId?.getD old.requestId
  originalRequest := updates.originalRequest?.getD old.originalRequest
  splitDetails := updates.splitDetails?.getD old.splitDetails
  tasks := updates.tasks?.getD old.tasks
  completed := updates.completed?.getD old.completed

/-- The spread merge of `updateTask`:
`{ ...data.requests[requestIndex].tasks[taskIndex], ...updates }`. -/
def mergeTask (old : Task) (updates : TaskUpdates) : Task where
  id := updates.id?.getD old.id
  title := updates.title?.getD old.title
  description := updates.description?.getD old.description
  done := updates.done?.getD old.done
  approved := updates.approved?.getD old.approved
  completedDetails := updates.completedDetails?.getD old.completedDetails

/-- Lookup core of `getRequest`:
`data.requests.find(request => request.requestId === requestId) || null`. -/
def getRequest (data : TasksData) (requestId : String) : Option Request :=
  data.requests.find? (fun request => request.requestId == requestId)

/-- Lookup core of `getTask`: resolve the request, then
`request.tasks.find(task => task.id === taskId) || null`. -/
def getTask (data : TasksData) (requestId taskId : String) : Option Task :=
  match getRequest data requestId with
  | none => none
  | some request => request.tasks.find? (fun task => task.id == taskId)

/-- Body of the summary mapping of `getAllRequests` (lines 437-452 of the
service): count done and approved tasks and round the two ratio
percentages. -/
def summarizeRequest (request : Request) : RequestSummary :=
  let totalTasks := request.tasks.length
  let completedTasks := (request.tasks.filter (fun task => task.done)).length
  let approvedTasks := (request.tasks.filter (fun task => task.approved)).length
  { requestId := request.requestId
    originalRequest := request.originalRequest
    totalTasks := totalTasks
    completedTasks := completedTasks
    approvedTasks := approvedTasks
    completionPercentage :=
      if 0 < totalTasks then round ((completedTasks : ℚ) / (totalTasks : ℚ) * 100) else 0
    approvalPercentage :=
      if 0 < totalTasks then round ((approvedTasks : ℚ) / (totalTasks : ℚ) * 100) else 0
    completed := request.completed }

/-- `getAllRequests`: map every request of the loaded document to its
summary. -/
def getAllRequests (data : TasksData) : List RequestSummary :=
  data.requests.map summarizeRequest

/-- Mutation core of `createRequest`: generate the lowest free `req-N`,
build the record by spread (an input-supplied id wins), validate, append. -/
def createRequest (data : TasksData) (requestData : RequestInput) :
    Except Err (TasksData × Request) :=
  let existingIds := data.requests.map (fun r => r.requestId)
  let newId := lowestFree existingIds "req-"
  let newRequest : Request :=
    { requestId := requestData.requestId?.getD ("req-" ++ showNat newId)
      originalRequest := requestData.originalRequest
      splitDetails := requestData.splitDetails
      tasks := requestData.tasks
      completed := requestData.completed }
  if validRequest newRequest then
    .ok ({ requests := data.requests ++ [newRequest] }, newRequest)
  else
    .error .validationFailed

/-- Mutation core of `updateRequest`: locate by `findIndex`, 404 when
absent, spread-merge, validate, write back at the same index. -/
def updateRequest (data : TasksData) (requestId : String) (updates : RequestUpdates) :
    Except Err (TasksData × Request) :=
  let requestIndex := data.requests.findIdx (fun r => r.requestId == requestId)
  if h : requestIndex < data.requests.length then
    let updatedRequest := mergeRequest data.requests[requestIndex] updates
    if validRequest updatedRequest then
      .ok ({ requests := data.requests.set requestIndex updatedRequest }, updatedRequest)
    else
      .error .validationFailed
  else
    .error (.api "Request not found" 404)

/-- Mutation core of `deleteRequest`: locate by `findIndex`, 404 when
absent, `splice(requestIndex, 1)`. -/
def deleteRequest (data : TasksData) (requestId : String) : Except Err TasksData :=
  let requestIndex := data.requests.findIdx (fun r => r.requestId == requestId)
  if requestIndex < data.requests.length then
    .ok { requests := data.requests.eraseIdx requestIndex }
  else
    .error (.api "Request not found" 404)

/-- Mutation core of `createTask`: locate the request (404 when absent),
generate the lowest free `task-N` among its tasks, build by spread,
validate, append to the request's task list. -/
def createTask (data : TasksData) (requestId : String) (taskData : TaskInput) :
    Except Err (TasksData × Task) :=
  let requestIndex := data.requests.findIdx (fun r => r.requestId == requestId)
  if h : requestIndex < data.requests.length then
    let request := data.requests[requestIndex]
    let existingIds := request.tasks.map (fun t => t.id)
    let newId := lowestFree existingIds "task-"
    let newTask : Task :=
      { id := taskData.id?.getD ("task-" ++ showNat newId)
        title := taskData.title
        description := taskData.description
        done := taskData.done
        approved := taskData.approved
        completedDetails := taskData.completedDetails }
    if validTask newTask then
      .ok ({ requests := data.requests.set requestIndex
               { request with tasks := request.tasks ++ [newTask] } }, newTask)
    else
      .error .validationFailed
  else
    .error (.api "Request not found" 404)

/-- Mutation core of `updateTask`: locate request then task (404 when
either is absent), spread-merge, validate, write back in place. -/
def updateTask (data : TasksData) (requestId taskId : String) (updates : TaskUpdates) :
    Except Err (TasksData × Task) :=
  let requestIndex := data.requests.findIdx (fun r => r.requestId == requestId)
  if h : requestIndex < data.requests.length then
    let request := data.requests[requestIndex]
    let taskIndex := request.tasks.findIdx (fun t => t.id == taskId)
    if h2 : taskIndex < request.tasks.length then
      let updatedTask := mergeTask request.tasks[taskIndex] updates
      if validTask updatedTask then
        .ok ({ requests := data.requests.set requestIndex
                 { request with tasks := request.tasks.set taskIndex updatedTask } },
             updatedTask)
      else
        .error .validationFailed
    else
      .error (.api "Task not found" 404)
  else
    .error (.api "Request not found" 404)

/-- Mutation core of `deleteTask`: locate request then task (404 when
either is absent), `splice(taskIndex, 1)` on the request's task list. -/
def deleteTask (data : TasksData) (requestId taskId : String) : Except Err TasksData :=
  let requestIndex := data.requests.findIdx (fun r => r.requestId == requestId)
  if h : requestIndex < data.requests.length then
    let request := data.requests[requestIndex]
    let taskIndex := request.tasks.findIdx (fun t => t.id == taskId)
    if taskIndex < request.tasks.length then
      .ok { requests := data.requests.set requestIndex
              { request with tasks := request.tasks.eraseIdx taskIndex } }
    else
      .error (.api "Task not found" 404)
  else
    .error (.api "Request not found" 404)

/-! ### File contents, checksums and the file-system state

The texts stored in files are modelled by `FileData`: blank text
(including whitespace-only, which fails the `!fileContent.trim()` check),
unparseable text, and serialized JSON values tagged with their formatting.
`JSON.stringify(v)` and `JSON.stringify(v, null, 2)` of the same value are
different texts, which the `Fmt` tag records. -/

/-- Serialization formatting: `JSON.stringify(v)` versus
`JSON.stringify(v, null, 2)`. -/
inductive Fmt where
  | compact
  | pretty
  deriving Repr, DecidableEq

/-- A parsed JSON value: a structurally well-typed document, or an opaque
non-document value. -/
inductive Json where
  | doc (d : TasksData)
  | other (tag : Nat)
  deriving Repr, DecidableEq

/-- Text content of a file. -/
inductive FileData where
  | blank
  | malformed (tag : Nat)
  | json (value : Json) (fmt : Fmt)
  deriving Repr, DecidableEq

/-- A checksum is the fingerprint of a text. -/
abbrev Checksum := FileData

/-- Model of `calculateChecksum` (SHA-256 hex digest of the text): an
injective fingerprint — two checksums agree exactly when the hashed texts
agree (hash collisions are not modelled). -/
def calculateChecksum (content : FileData) : Checksum := content

/-- Contents of one backup file: the `{timestamp, checksum, type?, data}`
wrapper written by `createBackup` / `createManualBackup`. -/
structure BackupRecord where
  timestamp : String
  checksum : Checksum
  manual : Bool
  data : Json
  deriving Repr, DecidableEq

/-- The file-system state seen by the service: the live `tasks.json`, its
checksum sidecar, the two temporary files of `saveData`, the backup
directory (file name to contents), and whether `.tasks.lock` exists. -/
structure FsState where
  live : Option FileData
  checksumFile : Option Checksum
  tmp : Option FileData
  tmpChecksum : Option Checksum
  backups : List (String × BackupRecord)
  lock : Bool
  deriving Repr, DecidableEq

/-! ### JavaScript string helpers

Modelled over `String.data` so that every operation is structural and
kernel-evaluable.  `localeCompare` on the ASCII backup names is modelled by
codepoint-lexicographic comparison. -/

/-- JavaScript `s.startsWith(p)`. -/
def strStartsWith (s p : String) : Bool := p.data.isPrefixOf s.data

/-- JavaScript `s.endsWith(p)`. -/
def strEndsWith (s p : String) : Bool := p.data.isSuffixOf s.data

/-- Split a character list at the first occurrence of `pat`, returning the
parts before and after it. -/
def splitFirst (pat : List Char) : List Char → Option (List Char × List Char)
  | [] => if pat.isEmpty then some ([], []) else none
  | c :: cs =>
    if pat.isPrefixOf (c :: cs) then some ([], (c :: cs).drop pat.length)
    else (splitFirst pat cs).map (fun p => (c :: p.1, p.2))

/-- JavaScript `s.replace(pat, rep)` with a string pattern: replace the
first occurrence only. -/
def replaceFirst (s pat rep : String) : String :=
  match splitFirst pat.data s.data with
  | some p => String.mk (p.1 ++ rep.data ++ p.2)
  | none => s

/-- Key a backup file is sorted by in `cleanupOldBackups` /
`restoreFromBackup`: the file name with the first `tasks-` and the first
`.json` removed. -/
def backupSortKey (name : String) : String :=
  replaceFirst (replaceFirst name "tasks-" "") ".json" ""

/-- Filter of `cleanupOldBackups` / `restoreFromBackup`:
`file.startsWith('tasks-') && file.endsWith('.json')`. -/
def isBackupName (name : String) : Bool :=
  strStartsWith name "tasks-" && strEndsWith name ".json"

/-- Comparator `(a, b) => b.timestamp.localeCompare(a.timestamp)`: `a`
comes before `b` when the key of `b` is at most the key of `a` (descending
key order). -/
def backupLe (a b : String) : Prop := backupSortKey b ≤ backupSortKey a

instance : DecidableRel backupLe := fun a b =>
  decidable_of_iff ((backupSortKey b).toList ≤ (backupSortKey a).toList)
    String.le_iff_toList_le.symm

instance : IsTotal String backupLe :=
  ⟨fun a b => le_total (backupSortKey b) (backupSortKey a)⟩

instance : IsTrans String backupLe :=
  ⟨fun _ _ _ h1 h2 => le_trans h2 h1⟩

/-- `MAX_BACKUPS`. -/
def maxBackups : Nat := 10

/-- The backup files `cleanupOldBackups` deletes: everything past the
first `MAX_BACKUPS` entries of the matching names sorted descending by
`backupSortKey`. -/
def backupsToDelete (files : List String) : List String :=
  (List.insertionSort backupLe (files.filter isBackupName)).drop maxBackups

/-- Directory contents after `cleanupOldBackups()`: the files whose names
are not deleted. -/
def cleanupOldBackups (files : List String) : List String :=
  files.filter (fun f => !((backupsToDelete files).contains f))

/-- `cleanupOldBackups` acting on the backup directory of the state. -/
def cleanupDir (dir : List (String × BackupRecord)) : List (String × BackupRecord) :=
  dir.filter (fun f => !((backupsToDelete (dir.map Prod.fst)).contains f.1))

/-- Read one file of the backup directory. -/
def lookupDir (dir : List (String × BackupRecord)) (name : String) : Option BackupRecord :=
  (dir.find? (fun f => f.1 == name)).map Prod.snd

/-- `fs.writeFile` into the backup directory: overwrite an existing name,
otherwise append. -/
def writeDirFile (dir : List (String × BackupRecord)) (name : String)
    (file : BackupRecord) : List (String × BackupRecord) :=
  if dir.any (fun f => f.1 == name) then
    dir.map (fun f => if f.1 == name then (name, file) else f)
  else
    dir ++ [(name, file)]

/-- `timestamp.replace(/[:.]/g, '-')` in the backup file names. -/
def sanitizeTimestamp (ts : String) : String :=
  String.mk (ts.data.map (fun c => if c = ':' || c = '.' then '-' else c))

/-- `createBackup` (lines 108-136): if the live file exists, snapshot it as
`tasks-<ts>.json` wrapping `{timestamp, checksum(fileText), data:
JSON.parse(fileText)}`, then prune old backups.  When the live text does
not parse, `JSON.parse` throws and the whole operation is swallowed
(nothing is written and no pruning happens). -/
def createBackup (ts : String) (s : FsState) : FsState :=
  match s.live with
  | none => s
  | some content =>
    match content with
    | .json j _ =>
      let backupName := "tasks-" ++ sanitizeTimestamp ts ++ ".json"
      let record : BackupRecord :=
        { timestamp := ts, checksum := calculateChecksum content, manual := false, data := j }
      let s1 := { s with backups := writeDirFile s.backups backupName record }
      { s1 with backups := cleanupDir s1.backups }
    | _ => s

/-- `createManualBackup` (lines 392-421): same snapshot tagged
`type: 'manual'` under `tasks-manual-<ts>.json`, returning the path, `none`
on any failure; no pruning. -/
def createManualBackup (ts : String) (s : FsState) : FsState × Option String :=
  match s.live with
  | none => (s, none)
  | some content =>
    match content with
    | .json j _ =>
      let backupName := "tasks-manual-" ++ sanitizeTimestamp ts ++ ".json"
      let record : BackupRecord :=
        { timestamp := ts, checksum := calculateChecksum content, manual := true, data := j }
      ({ s with backups := writeDirFile s.backups backupName record }, some backupName)
    | _ => (s, none)

/-- Scan loop of `restoreFromBackup` (lines 181-206): for each candidate
name in order, re-read it, recompute the checksum of the compact
serialization `JSON.stringify(backupData.data)` of its embedded data and
compare with the stored checksum; on a match, schema-validate the data and,
on success, rewrite the live file with the pretty serialization and return
the document; any failure moves on to the next candidate. -/
def restoreScan (s : FsState) : List String → Option (TasksData × FsState)
  | [] => none
  | name :: rest =>
    match lookupDir s.backups name with
    | none => restoreScan s rest
    | some record =>
      if calculateChecksum (FileData.json record.data Fmt.compact) = record.checksum then
        match record.data with
        | .doc d =>
          if validDoc d then
            some (d, { s with live := some (FileData.json (Json.doc d) Fmt.pretty) })
          else restoreScan s rest
        | .other _ => restoreScan s rest
      else restoreScan s rest

/-- `restoreFromBackup` (lines 169-212): scan the matching backup names in
descending key order. -/
def restoreFromBackup (s : FsState) : Option (TasksData × FsState) :=
  restoreScan s (List.insertionSort backupLe ((s.backups.map Prod.fst).filter isBackupName))

/-- The outer catch of `loadData`: an `ApiError` is rethrown unchanged, any
other exception is wrapped as `ApiError('Failed to load tasks data: ...',
500)`. -/
def wrapLoadErr : Err → Err
  | .api msg status => .api msg status
  | .jsError msg => .api ("Failed to load tasks data: Error: " ++ msg) 500
  | .validationFailed => .api "Failed to load tasks data: validation error" 500

/-- `saveData` (lines 279-332): acquire the lock, snapshot via
`createBackup`, validate, serialize pretty with a checksum, write both
temp files, re-read the temp content (the `fault` parameter models what
the disk returns for that read; `fun c => c` is a healthy disk) and
recompute its checksum; on mismatch throw and unlink the temp files; on
match rename temp content then temp checksum over the live files; always
release the lock.  A held lock is modelled as fresh (never breakable), so
acquisition times out; the stale-lock path is modelled by `acquireLock`
below. -/
def saveData (ts : String) (fault : FileData → FileData) (data : TasksData) (s : FsState) :
    Except Err Unit × FsState :=
  if s.lock then
    (.error (.api "Timeout waiting for file lock" 409), s)
  else
    let s0 := { s with lock := true }
    let s1 := createBackup ts s0
    if validDoc data then
      let dataString := FileData.json (Json.doc data) Fmt.pretty
      let checksum := calculateChecksum dataString
      let s2 := { s1 with tmp := some dataString, tmpChecksum := some checksum }
      let writtenData := fault dataString
      let writtenChecksum := calculateChecksum writtenData
      if writtenChecksum = checksum then
        (.ok (), { s2 with live := some dataString, checksumFile := some checksum,
                           tmp := none, tmpChecksum := none, lock := false })
      else
        (.error (.jsError "Data integrity check failed after write"),
         { s2 with tmp := none, tmpChecksum := none, lock := false })
    else
      (.error .validationFailed, { s1 with lock := false })

/-- `loadData` (lines 217-274): seed and persist an empty document when the
live file is absent; otherwise read it and, for blank, unparseable or
schema-invalid content, fall back to `restoreFromBackup`, surfacing an
error only when no backup restores. -/
def loadData (ts : String) (fault : FileData → FileData) (s : FsState) :
    Except Err TasksData × FsState :=
  match s.live with
  | none =>
    let initialData : TasksData := { requests := [] }
    match saveData ts fault initialData s with
    | (.ok _, s1) => (.ok initialData, s1)
    | (.error e, s1) => (.error (wrapLoadErr e), s1)
  | some fileContent =>
    match fileContent with
    | .blank =>
      match restoreFromBackup s with
      | some (d, s1) => (.ok d, s1)
      | none => (.error (wrapLoadErr (.jsError "Empty file detected")), s)
    | .malformed _ =>
      match restoreFromBackup s with
      | some (d, s1) => (.ok d, s1)
      | none => (.error (.api "Invalid JSON format and no valid backup available" 400), s)
    | .json j _ =>
      match j with
      | .doc d =>
        if validDoc d then
          (.ok d, s)
        else
          match restoreFromBackup s with
          | some (d2, s1) => (.ok d2, s1)
          | none => (.error (.api "Invalid data structure and no valid backup available" 400), s)
      | .other _ =>
        match restoreFromBackup s with
        | some (d2, s1) => (.ok d2, s1)
        | none => (.error (.api "Invalid data structure and no valid backup available" 400), s)

/-! ### Service-level wrappers

The public mutating methods: load the document from disk, run the mutation
core, persist the mutated document.  An exception at any stage propagates
and skips the following stages. -/

/-- Service method `updateRequest`: load, mutate, persist. -/
def updateRequestSvc (ts : String) (fault : FileData → FileData) (requestId : String)
    (updates : RequestUpdates) (s : FsState) : Except Err Request × FsState :=
  match loadData ts fault s with
  | (.error e, s1) => (.error e, s1)
  | (.ok d, s1) =>
    match updateRequest d requestId updates with
    | .error e => (.error e, s1)
    | .ok (d2, r) =>
      match saveData ts fault d2 s1 with
      | (.ok _, s2) => (.ok r, s2)
      | (.error e, s2) => (.error e, s2)

/-- Service method `deleteRequest`: load, mutate, persist. -/
def deleteRequestSvc (ts : String) (fault : FileData → FileData) (requestId : String)
    (s : FsState) : Except Err Unit × FsState :=
  match loadData ts fault s with
  | (.error e, s1) => (.error e, s1)
  | (.ok d, s1) =>
    match deleteRequest d requestId with
    | .error e => (.error e, s1)
    | .ok d2 =>
      match saveData ts fault d2 s1 with
      | (.ok _, s2) => (.ok (), s2)
      | (.error e, s2) => (.error e, s2)

/-- Service method `updateTask`: load, mutate, persist. -/
def updateTaskSvc (ts : String) (fault : FileData → FileData) (requestId taskId : String)
    (updates : TaskUpdates) (s : FsState) : Except Err Task × FsState :=
  match loadData ts fault s with
  | (.error e, s1) => (.error e, s1)
  | (.ok d, s1) =>
    match updateTask d requestId taskId updates with
    | .error e => (.error e, s1)
    | .ok (d2, t) =>
      match saveData ts fault d2 s1 with
      | (.ok _, s2) => (.ok t, s2)
      | (.error e, s2) => (.error e, s2)

/-- Service method `deleteTask`: load, mutate, persist. -/
def deleteTaskSvc (ts : String) (fault : FileData → FileData) (requestId taskId : String)
    (s : FsState) : Except Err Unit × FsState :=
  match loadData ts fault s with
  | (.error e, s1) => (.error e, s1)
  | (.ok d, s1) =>
    match deleteTask d requestId taskId with
    | .error e => (.error e, s1)
    | .ok d2 =>
      match saveData ts fault d2 s1 with
      | (.ok _, s2) => (.ok (), s2)
      | (.error e, s2) => (.error e, s2)

/-! ### Lock acquisition

`acquireLock` (lines 43-87) polls `fs.open(LOCK_FILE_PATH, 'wx')` until the
30-second deadline.  Each poll is modelled by a `LockProbe`; time is an
integer count of milliseconds advanced only by the 100 ms sleeps. -/

/-- What reading an existing lock file yields: `bad` when the read, the
`JSON.parse`, or the property access throws (caught by the inner catch);
otherwise the parsed metadata with `new Date(timestamp).getTime()` as an
optional integer (`none` models `NaN`). -/
inductive LockContent where
  | bad
  | parsed (ts : Option Int)
  deriving Repr, DecidableEq

/-- Result of one `fs.open(..., 'wx')` attempt. -/
inductive LockProbe where
  | created
  | held (c : LockContent)
  | failure
  deriving Repr, DecidableEq

/-- What one loop iteration does after its probe. -/
inductive LockStep where
  | acquired
  | deleteRetry
  | sleepRetry
  | fatal
  deriving Repr, DecidableEq

/-- `LOCK_TIMEOUT` (ms), both the staleness threshold and the acquisition
deadline. -/
def lockTimeout : Int := 30000

/-- One iteration body of the `acquireLock` loop: create the lock file on
success; on `EEXIST` read the metadata — an unreadable/unparseable lock
file is deleted and retried immediately; parsed metadata is deleted only
when `now - timestamp > LOCK_TIMEOUT` (a `NaN` age fails this comparison),
otherwise the loop sleeps 100 ms; any non-`EEXIST` open failure throws
`ApiError(500)`. -/
def lockAttemptStep (now : Int) : LockProbe → LockStep
  | .created => .acquired
  | .failure => .fatal
  | .held .bad => .deleteRetry
  | .held (.parsed none) => .sleepRetry
  | .held (.parsed (some t)) =>
    if lockTimeout < now - t then .deleteRetry else .sleepRetry

/-- Outcome of `acquireLock` over a finite probe trace. -/
inductive AcqOutcome where
  | ok
  | timeout
  | fatal
  | exhausted
  deriving Repr, DecidableEq

/-- Result of `acquireLock`: outcome, total milliseconds slept, and number
of stale lock files deleted. -/
structure AcqResult where
  outcome : AcqOutcome
  sleepMs : Nat
  deletions : Nat
  deriving Repr, DecidableEq

/-- The `acquireLock` polling loop over a trace of probe results: while
`Date.now() - startTime < LOCK_TIMEOUT`, probe; a delete-retry re-enters
the loop at the same instant, a sleep-retry re-enters it 100 ms later;
past the deadline throw the 409 conflict error.  `exhausted` marks running
out of trace, not a behaviour of the code. -/
def acquireLock (startTime : Int) : Int → List LockProbe → AcqResult
  | _, [] => ⟨.exhausted, 0, 0⟩
  | now, probe :: rest =>
    if now - startTime < lockTimeout then
      match lockAttemptStep now probe with
      | .acquired => ⟨.ok, 0, 0⟩
      | .fatal => ⟨.fatal, 0, 0⟩
      | .deleteRetry =>
        let r := acquireLock startTime now rest
        ⟨r.outcome, r.sleepMs, r.deletions + 1⟩
      | .sleepRetry =>
        let r := acquireLock startTime (now + 100) rest
        ⟨r.outcome, r.sleepMs + 100, r.deletions⟩
    else
      ⟨.timeout, 0, 0⟩

/-! ### Helper lemmas -/

theorem find?_eq_getElem?_findIdx {α : Type} (p : α → Bool) (l : List α) :
    l.find? p = l[l.findIdx p]? := by
  induction l with
  | nil => simp
  | cons a t ih =>
    by_cases hp : p a
    · simp [List.find?_cons_of_pos _ hp, List.findIdx_cons, hp]
    · simp [List.find?_cons_of_neg _ hp, List.findIdx_cons, hp, ih]

theorem createBackup_preserves (ts : String) (s : FsState) :
    (createBackup ts s).live = s.live ∧
      (createBackup ts s).checksumFile = s.checksumFile ∧
      (createBackup ts s).tmp = s.tmp ∧
      (createBackup ts s).tmpChecksum = s.tmpChecksum ∧
      (createBackup ts s).lock = s.lock := by
  unfold createBackup
  cases hl : s.live with
  | none => simp [hl]
  | some content => cases content <;> simp [hl]

theorem loadData_clean (ts : String) (fault : FileData → FileData) (s : FsState)
    (d : TasksData) (fmt : Fmt)
    (hlive : s.live = some (FileData.json (Json.doc d) fmt)) (hvalid : validDoc d = true) :
    loadData ts fault s = (.ok d, s) := by
  unfold loadData
  rw [hlive]
  simp [hvalid]

/-! ### Claim theorems -/

/-- Concrete fixtures shared by the witnesses and counterexamples. -/
def emptyDoc : TasksData := { requests := [] }

def task1 : Task :=
  { id := "task-1", title := "t", description := "d", done := false, approved := false,
    completedDetails := "" }

def request1 : Request :=
  { requestId := "req-1", originalRequest := "r", splitDetails := "", tasks := [task1],
    completed := false }

def doc1 : TasksData := { requests := [request1] }

def emptyFs : FsState :=
  { live := none, checksumFile := none, tmp := none, tmpChecksum := none, backups := [],
    lock := false }

/-- C9: for a request with `T` tasks of which `C` are done and `A` are
approved, the read-time summary of `getAllRequests` reports
`completedTasks = C`, `approvedTasks = A`, and, when `T > 0`, percentages
equal to `100*C/T` and `100*A/T` rounded to the nearest integer (within
one half of the exact ratio); when `T = 0` both percentages are `0`. -/
theorem request_summary_statistics (data : TasksData) (request : Request)
    (hmem : request ∈ data.requests) :
    ∃ s ∈ getAllRequests data,
      s.requestId = request.requestId ∧
      s.totalTasks = request.tasks.length ∧
      s.completedTasks = (request.tasks.filter (fun t => t.done)).length ∧
      s.approvedTasks = (request.tasks.filter (fun t => t.approved)).length ∧
      (0 < request.tasks.length →
        s.completionPercentage =
          round ((100 * ((request.tasks.filter (fun t => t.done)).length : ℚ)) /
            (request.tasks.length : ℚ)) ∧
        |(s.completionPercentage : ℚ) -
            (100 * ((request.tasks.filter (fun t => t.done)).length : ℚ)) /
              (request.tasks.length : ℚ)| ≤ 1 / 2 ∧
        s.approvalPercentage =
          round ((100 * ((request.tasks.filter (fun t => t.approved)).length : ℚ)) /
            (request.tasks.length : ℚ)) ∧
        |(s.approvalPercentage : ℚ) -
            (100 * ((request.tasks.filter (fun t => t.approved)).length : ℚ)) /
              (request.tasks.length : ℚ)| ≤ 1 / 2) ∧
      (request.tasks.length = 0 →
        s.completionPercentage = 0 ∧ s.approvalPercentage = 0) := by
  have harg1 : ((request.tasks.filter (fun t => t.done)).length : ℚ) /
      (request.tasks.length : ℚ) * 100 =
      (100 * ((request.tasks.filter (fun t => t.done)).length : ℚ)) /
        (request.tasks.length : ℚ) := by ring
  have harg2 : ((request.tasks.filter (fun t => t.approved)).length : ℚ) /
      (request.tasks.length : ℚ) * 100 =
      (100 * ((request.tasks.filter (fun t => t.approved)).length : ℚ)) /
        (request.tasks.length : ℚ) := by ring
  have hcomp : (summarizeRequest request).completionPercentage =
      if 0 < request.tasks.length then
        round (((request.tasks.filter (fun t => t.done)).length : ℚ) /
          (request.tasks.length : ℚ) * 100)
      else 0 := rfl
  have happr : (summarizeRequest request).approvalPercentage =
      if 0 < request.tasks.length then
        round (((request.tasks.filter (fun t => t.approved)).length : ℚ) /
          (request.tasks.length : ℚ) * 100)
      else 0 := rfl
  refine ⟨summarizeRequest request, List.mem_map_of_mem _ hmem, rfl, rfl, rfl, rfl, ?_, ?_⟩
  · intro hT
    refine ⟨?_, ?_, ?_, ?_⟩
    · rw [hcomp, if_pos hT]
      exact congrArg round harg1
    · rw [hcomp, if_pos hT, harg1, abs_sub_comm]
      exact abs_sub_round _
    · rw [happr, if_pos hT]
      exact congrArg round harg2
    · rw [happr, if_pos hT, harg2, abs_sub_comm]
      exact abs_sub_round _
  · intro hT
    rw [hcomp, happr, if_neg (by omega), if_neg (by omega)]
    exact ⟨rfl, rfl⟩

/-- C9 witness: the 4-task request with 2 done and 1 approved reports
percentages 50 and 25. -/
def requestC9 : Request :=
  { requestId := "req-1", originalRequest := "r", splitDetails := ""
    tasks :=
      [{ id := "task-1", title := "a", description := "d", done := true, approved := true,
         completedDetails := "" },
       { id := "task-2", title := "b", description := "d", done := true, approved := false,
         completedDetails := "" },
       { id := "task-3", title := "c", description := "d", done := false, approved := false,
         completedDetails := "" },
       { id := "task-4", title := "e", description := "d", done := false, approved := false,
         completedDetails := "" }]
    completed := false }

theorem request_summary_statistics_witness :
    requestC9 ∈ (TasksData.mk [requestC9]).requests ∧
    ∃ s ∈ getAllRequests (TasksData.mk [requestC9]),
      s.requestId = requestC9.requestId ∧
      s.totalTasks = requestC9.tasks.length ∧
      s.completedTasks = (requestC9.tasks.filter (fun t => t.done)).length ∧
      s.approvedTasks = (requestC9.tasks.filter (fun t => t.approved)).length ∧
      (0 < requestC9.tasks.length →
        s.completionPercentage =
          round ((100 * ((requestC9.tasks.filter (fun t => t.done)).length : ℚ)) /
            (requestC9.tasks.length : ℚ)) ∧
        |(s.completionPercentage : ℚ) -
            (100 * ((requestC9.tasks.filter (fun t => t.done)).length : ℚ)) /
              (requestC9.tasks.length : ℚ)| ≤ 1 / 2 ∧
        s.approvalPercentage =
          round ((100 * ((requestC9.tasks.filter (fun t => t.approved)).length : ℚ)) /
            (requestC9.tasks.length : ℚ)) ∧
        |(s.approvalPercentage : ℚ) -
            (100 * ((requestC9.tasks.filter (fun t => t.approved)).length : ℚ)) /
              (requestC9.tasks.length : ℚ)| ≤ 1 / 2) ∧
      (requestC9.tasks.length = 0 →
        s.completionPercentage = 0 ∧ s.approvalPercentage = 0) :=
  ⟨by decide, request_summary_statistics (TasksData.mk [requestC9]) requestC9 (by decide)⟩

/-- C5 counterexample: `createRequest` does not overwrite a caller-supplied
identifier — the spread `{ requestId: generated, ...requestData }` lets the
input field win, so on an empty document an input carrying
`requestId: 'zzz'` produces a request with id `zzz`, not the generated
`req-1`. -/
theorem create_id_override_counterexample :
    (createRequest emptyDoc
        { requestId? := some "zzz", originalRequest := "x", splitDetails := "", tasks := [],
          completed := false }).map (fun p => p.2.requestId) = .ok "zzz" ∧
    ¬ (createRequest emptyDoc
        { requestId? := some "zzz", originalRequest := "x", splitDetails := "", tasks := [],
          completed := false }).map (fun p => p.2.requestId) = .ok "req-1" := by
  decide

/-- C5 (amended): when the input fields carry no identifier, `createRequest`
assigns `req-N` and `createTask` assigns `task-N` with `N` the smallest
positive integer whose id is not already in use in the relevant scope
(requests globally, tasks within the parent request); freed numbers are
recycled.  An identifier present in the input fields instead overrides the
generated one (see the counterexample). -/
theorem create_assigns_lowest_free_id (data : TasksData) (requestData : RequestInput)
    (taskData : TaskInput) (requestId : String)
    (hreq : requestData.requestId? = none) (htask : taskData.id? = none) :
    (∀ d2 r, createRequest data requestData = .ok (d2, r) →
      ∃ N, r.requestId = "req-" ++ showNat N ∧ 1 ≤ N ∧
        ("req-" ++ showNat N) ∉ data.requests.map (fun q => q.requestId) ∧
        ∀ m, 1 ≤ m → m < N →
          ("req-" ++ showNat m) ∈ data.requests.map (fun q => q.requestId)) ∧
    (∀ d2 t, createTask data requestId taskData = .ok (d2, t) →
      ∃ request, data.requests.find? (fun r => r.requestId == requestId) = some request ∧
        request.requestId = requestId ∧
        ∃ N, t.id = "task-" ++ showNat N ∧ 1 ≤ N ∧
          ("task-" ++ showNat N) ∉ request.tasks.map (fun q => q.id) ∧
          ∀ m, 1 ≤ m → m < N →
            ("task-" ++ showNat m) ∈ request.tasks.map (fun q => q.id)) := by
  constructor
  · intro d2 r h
    unfold createRequest at h
    rw [hreq] at h
    simp only [Option.getD_none] at h
    split at h
    · simp only [Except.ok.injEq, Prod.mk.injEq] at h
      obtain ⟨-, hb⟩ := h
      subst hb
      exact ⟨lowestFree (data.requests.map (fun q => q.requestId)) "req-", rfl,
        (lowestFree_spec _ _).2.1, (lowestFree_spec _ _).1, (lowestFree_spec _ _).2.2⟩
    · cases h
  · intro d2 t h
    simp only [createTask, htask, Option.getD_none] at h
    split at h
    case isTrue hlt =>
      split at h
      · simp only [Except.ok.injEq, Prod.mk.injEq] at h
        obtain ⟨-, hb⟩ := h
        subst hb
        refine ⟨data.requests[List.findIdx (fun r => r.requestId == requestId) data.requests],
          ?_, ?_, ?_⟩
        · rw [find?_eq_getElem?_findIdx]
          exact List.getElem?_eq_getElem hlt
        · exact eq_of_beq (List.findIdx_getElem (w := hlt))
        · exact ⟨lowestFree _ "task-", rfl, (lowestFree_spec _ _).2.1,
            (lowestFree_spec _ _).1, (lowestFree_spec _ _).2.2⟩
      · cases h
    case isFalse => cases h

/-- C5 witness: on `doc1` (one request `req-1` holding `task-1`), id-free
inputs generate `req-2` and `task-2` respectively. -/
theorem create_assigns_lowest_free_id_witness :
    ({ requestId? := none, originalRequest := "x", splitDetails := "", tasks := [],
       completed := false } : RequestInput).requestId? = none ∧
    ({ id? := none, title := "y", description := "d", done := false, approved := false,
       completedDetails := "" } : TaskInput).id? = none ∧
    ((∀ d2 r, createRequest doc1
        { requestId? := none, originalRequest := "x", splitDetails := "", tasks := [],
          completed := false } = .ok (d2, r) →
      ∃ N, r.requestId = "req-" ++ showNat N ∧ 1 ≤ N ∧
        ("req-" ++ showNat N) ∉ doc1.requests.map (fun q => q.requestId) ∧
        ∀ m, 1 ≤ m → m < N →
          ("req-" ++ showNat m) ∈ doc1.requests.map (fun q => q.requestId)) ∧
    (∀ d2 t, createTask doc1 "req-1"
        { id? := none, title := "y", description := "d", done := false, approved := false,
          completedDetails := "" } = .ok (d2, t) →
      ∃ request, doc1.requests.find? (fun r => r.requestId == "req-1") = some request ∧
        request.requestId = "req-1" ∧
        ∃ N, t.id = "task-" ++ showNat N ∧ 1 ≤ N ∧
          ("task-" ++ showNat N) ∉ request.tasks.map (fun q => q.id) ∧
          ∀ m, 1 ≤ m → m < N →
            ("task-" ++ showNat m) ∈ request.tasks.map (fun q => q.id))) :=
  ⟨rfl, rfl,
    create_assigns_lowest_free_id doc1
      { requestId? := none, originalRequest := "x", splitDetails := "", tasks := [],
        completed := false }
      { id? := none, title := "y", description := "d", done := false, approved := false,
        completedDetails := "" }
      "req-1" rfl rfl⟩

/-- C6 counterexample: identifiers are not immutable under updates — the
spread `{ ...old, ...updates }` lets an identifier field in the updates
record replace the stored one, so updating `task-1` with
`{ id: 'task-99' }` succeeds and returns a task whose id is `task-99`, and
updating `req-1` with `{ requestId: 'zzz' }` succeeds and returns a
request whose id is `zzz`. -/
theorem update_id_override_counterexample :
    (updateTask doc1 "req-1" "task-1"
        { id? := some "task-99", title? := none, description? := none, done? := none,
          approved? := none, completedDetails? := none }).map (fun p => p.2.id) =
      .ok "task-99" ∧
    (updateRequest doc1 "req-1"
        { requestId? := some "zzz", originalRequest? := none, splitDetails? := none,
          tasks? := none, completed? := none }).map (fun p => p.2.requestId) = .ok "zzz" := by
  decide

/-- C6 (amended): a successful `updateTask` returns a task whose id equals
`taskId`, and a successful `updateRequest` returns a request whose id
equals `requestId`, provided the updates record does not itself carry the
identifier field; an identifier carried in the updates replaces the stored
one (see the counterexample). -/
theorem update_preserves_id_without_id_field (data : TasksData)
    (requestId taskId : String) (ru : RequestUpdates) (tu : TaskUpdates)
    (hru : ru.requestId? = none) (htu : tu.id? = none) :
    (∀ d2 t, updateTask data requestId taskId tu = .ok (d2, t) → t.id = taskId) ∧
    (∀ d2 r, updateRequest data requestId ru = .ok (d2, r) → r.requestId = requestId) := by
  constructor
  · intro d2 t h
    simp only [updateTask] at h
    split at h
    case isTrue hlt =>
      split at h
      case isTrue hlt2 =>
        split at h
        · simp only [Except.ok.injEq, Prod.mk.injEq] at h
          obtain ⟨-, hb⟩ := h
          subst hb
          show (mergeTask _ tu).id = taskId
          rw [mergeTask]
          simp only [htu, Option.getD_none]
          exact eq_of_beq (List.findIdx_getElem (w := hlt2))
        · cases h
      case isFalse => cases h
    case isFalse => cases h
  · intro d2 r h
    simp only [updateRequest] at h
    split at h
    case isTrue hlt =>
      split at h
      · simp only [Except.ok.injEq, Prod.mk.injEq] at h
        obtain ⟨-, hb⟩ := h
        subst hb
        show (mergeRequest _ ru).requestId = requestId
        rw [mergeRequest]
        simp only [hru, Option.getD_none]
        exact eq_of_beq (List.findIdx_getElem (w := hlt))
      · cases h
    case isFalse => cases h

/-- C6 witness: updating `task-1` of `doc1` with `{ done: true }` and
`req-1` with `{ completed: true }` keeps the ids. -/
theorem update_preserves_id_witness :
    ({ requestId? := none, originalRequest? := none, splitDetails? := none, tasks? := none,
       completed? := some true } : RequestUpdates).requestId? = none ∧
    ({ id? := none, title? := none, description? := none, done? := some true,
       approved? := none, completedDetails? := none } : TaskUpdates).id? = none ∧
    ((∀ d2 t, updateTask doc1 "req-1" "task-1"
        { id? := none, title? := none, description? := none, done? := some true,
          approved? := none, completedDetails? := none } = .ok (d2, t) → t.id = "task-1") ∧
     (∀ d2 r, updateRequest doc1 "req-1"
        { requestId? := none, originalRequest? := none, splitDetails? := none, tasks? := none,
          completed? := some true } = .ok (d2, r) → r.requestId = "req-1")) :=
  ⟨rfl, rfl,
    update_preserves_id_without_id_field doc1 "req-1" "task-1"
      { requestId? := none, originalRequest? := none, splitDetails? := none, tasks? := none,
        completed? := some true }
      { id? := none, title? := none, description? := none, done? := some true,
        approved? := none, completedDetails? := none }
      rfl rfl⟩

/-- C7: for a document that loads cleanly, an identifier not present in it
makes `updateRequest`, `deleteRequest`, `updateTask` and `deleteTask` fail
with the 404 `ApiError` while leaving the file-system state untouched
(nothing is persisted), whereas `getRequest` and `getTask` return the
absent-value sentinel instead of raising; likewise for a present request
but absent task id. -/
theorem crud_notFound_behaviour (ts : String) (fault : FileData → FileData) (s : FsState)
    (d : TasksData) (fmt : Fmt) (requestId taskId : String)
    (ru : RequestUpdates) (tu : TaskUpdates)
    (hlive : s.live = some (FileData.json (Json.doc d) fmt)) (hvalid : validDoc d = true) :
    ((∀ r ∈ d.requests, r.requestId ≠ requestId) →
      updateRequestSvc ts fault requestId ru s = (.error (.api "Request not found" 404), s) ∧
      deleteRequestSvc ts fault requestId s = (.error (.api "Request not found" 404), s) ∧
      updateTaskSvc ts fault requestId taskId tu s =
        (.error (.api "Request not found" 404), s) ∧
      deleteTaskSvc ts fault requestId taskId s =
        (.error (.api "Request not found" 404), s) ∧
      getRequest d requestId = none ∧
      getTask d requestId taskId = none) ∧
    (∀ hi : List.findIdx (fun r => r.requestId == requestId) d.requests < d.requests.length,
      (∀ x ∈ (d.requests[List.findIdx (fun r => r.requestId == requestId) d.requests]).tasks,
          x.id ≠ taskId) →
      updateTaskSvc ts fault requestId taskId tu s = (.error (.api "Task not found" 404), s) ∧
      deleteTaskSvc ts fault requestId taskId s = (.error (.api "Task not found" 404), s) ∧
      getTask d requestId taskId = none) := by
  have hload := loadData_clean ts fault s d fmt hlive hvalid
  constructor
  · intro habs
    have hfalse : ∀ r ∈ d.requests, ((fun r => r.requestId == requestId) r) = false := by
      intro r hr
      simpa using habs r hr
    have hlen := List.findIdx_eq_length_of_false hfalse
    have hnlt : ¬ List.findIdx (fun r => r.requestId == requestId) d.requests <
        d.requests.length := by omega
    have hur : updateRequest d requestId ru = .error (.api "Request not found" 404) := by
      unfold updateRequest
      rw [dif_neg hnlt]
    have hdr : deleteRequest d requestId = .error (.api "Request not found" 404) := by
      unfold deleteRequest
      rw [if_neg hnlt]
    have hut : updateTask d requestId taskId tu = .error (.api "Request not found" 404) := by
      unfold updateTask
      rw [dif_neg hnlt]
    have hdt : deleteTask d requestId taskId = .error (.api "Request not found" 404) := by
      unfold deleteTask
      rw [dif_neg hnlt]
    have hgr : getRequest d requestId = none := by
      unfold getRequest
      exact List.find?_eq_none.mpr (fun x hx => by simpa using habs x hx)
    refine ⟨?_, ?_, ?_, ?_, hgr, ?_⟩
    · simp [updateRequestSvc, hload, hur]
    · simp [deleteRequestSvc, hload, hdr]
    · simp [updateTaskSvc, hload, hut]
    · simp [deleteTaskSvc, hload, hdt]
    · unfold getTask
      rw [hgr]
  · intro hi htask
    have hfalse : ∀ x ∈
        (d.requests[List.findIdx (fun r => r.requestId == requestId) d.requests]).tasks,
        ((fun t => t.id == taskId) x) = false := by
      intro x hx
      simpa using htask x hx
    have hlen := List.findIdx_eq_length_of_false hfalse
    have hnlt : ¬ List.findIdx (fun t => t.id == taskId)
        (d.requests[List.findIdx (fun r => r.requestId == requestId) d.requests]).tasks <
        (d.requests[List.findIdx (fun r => r.requestId == requestId) d.requests]).tasks.length := by
      omega
    have hut : updateTask d requestId taskId tu = .error (.api "Task not found" 404) := by
      simp only [updateTask]
      rw [dif_pos hi, dif_neg hnlt]
    have hdt : deleteTask d requestId taskId = .error (.api "Task not found" 404) := by
      simp only [deleteTask]
      rw [dif_pos hi, if_neg hnlt]
    have hgr : getRequest d requestId =
        some (d.requests[List.findIdx (fun r => r.requestId == requestId) d.requests]) := by
      unfold getRequest
      rw [find?_eq_getElem?_findIdx]
      exact List.getElem?_eq_getElem hi
    refine ⟨?_, ?_, ?_⟩
    · simp [updateTaskSvc, hload, hut]
    · simp [deleteTaskSvc, hload, hdt]
    · unfold getTask
      rw [hgr]
      exact List.find?_eq_none.mpr (fun x hx => by simpa using htask x hx)

/-- C7 witness: on a clean state holding `doc1`, the id `req-9` (absent)
makes every mutator 404 without touching the state and both getters return
`none`; the present `req-1` with absent `task-9` behaves likewise for the
task operations. -/
def fsDoc1 : FsState :=
  { live := some (FileData.json (Json.doc doc1) Fmt.pretty), checksumFile := none,
    tmp := none, tmpChecksum := none, backups := [], lock := false }

theorem crud_notFound_behaviour_witness :
    fsDoc1.live = some (FileData.json (Json.doc doc1) Fmt.pretty) ∧
    validDoc doc1 = true ∧
    (∀ r ∈ doc1.requests, r.requestId ≠ "req-9") ∧
    (updateRequestSvc "t" (fun c => c) "req-9"
        { requestId? := none, originalRequest? := none, splitDetails? := none, tasks? := none,
          completed? := some true } fsDoc1 =
      (.error (.api "Request not found" 404), fsDoc1) ∧
     deleteRequestSvc "t" (fun c => c) "req-9" fsDoc1 =
      (.error (.api "Request not found" 404), fsDoc1) ∧
     updateTaskSvc "t" (fun c => c) "req-9" "task-9"
        { id? := none, title? := none, description? := none, done? := some true,
          approved? := none, completedDetails? := none } fsDoc1 =
      (.error (.api "Request not found" 404), fsDoc1) ∧
     deleteTaskSvc "t" (fun c => c) "req-9" "task-9" fsDoc1 =
      (.error (.api "Request not found" 404), fsDoc1) ∧
     getRequest doc1 "req-9" = none ∧
     getTask doc1 "req-9" "task-9" = none) :=
  ⟨rfl, rfl, by decide,
    (crud_notFound_behaviour "t" (fun c => c) fsDoc1 doc1 Fmt.pretty "req-9" "task-9"
      { requestId? := none, originalRequest? := none, splitDetails? := none, tasks? := none,
        completed? := some true }
      { id? := none, title? := none, description? := none, done? := some true,
        approved? := none, completedDetails? := none }
      rfl rfl).1 (by decide)⟩

/-- C10: frame conditions of the four mutators.  A successful `updateTask`
touches only the targeted task slot of the targeted request (every other
request is unchanged in place, the request list keeps its length, the
targeted request keeps all its other fields and tasks, and task order is
preserved); `deleteTask` removes exactly the targeted task, splicing the
rest together in order; `updateRequest` replaces only the targeted slot;
`deleteRequest` splices out exactly the targeted slot. -/
theorem crud_frame_conditions (data : TasksData) (requestId taskId : String)
    (tu : TaskUpdates) (ru : RequestUpdates) :
    (∀ d2 t, updateTask data requestId taskId tu = .ok (d2, t) →
      ∃ i, ∃ hi : i < data.requests.length,
        data.requests[i].requestId = requestId ∧
        d2.requests.length = data.requests.length ∧
        (∀ k, k ≠ i → d2.requests[k]? = data.requests[k]?) ∧
        ∃ j, ∃ hj : j < data.requests[i].tasks.length,
          (data.requests[i].tasks[j]).id = taskId ∧
          ∃ req2, d2.requests[i]? = some req2 ∧
            req2.requestId = data.requests[i].requestId ∧
            req2.originalRequest = data.requests[i].originalRequest ∧
            req2.splitDetails = data.requests[i].splitDetails ∧
            req2.completed = data.requests[i].completed ∧
            req2.tasks.length = data.requests[i].tasks.length ∧
            (∀ m, m ≠ j → req2.tasks[m]? = data.requests[i].tasks[m]?) ∧
            req2.tasks[j]? = some t) ∧
    (∀ d2, deleteTask data requestId taskId = .ok d2 →
      ∃ i, ∃ hi : i < data.requests.length,
        data.requests[i].requestId = requestId ∧
        d2.requests.length = data.requests.length ∧
        (∀ k, k ≠ i → d2.requests[k]? = data.requests[k]?) ∧
        ∃ j, ∃ hj : j < data.requests[i].tasks.length,
          (data.requests[i].tasks[j]).id = taskId ∧
          ∃ req2, d2.requests[i]? = some req2 ∧
            req2.requestId = data.requests[i].requestId ∧
            req2.originalRequest = data.requests[i].originalRequest ∧
            req2.splitDetails = data.requests[i].splitDetails ∧
            req2.completed = data.requests[i].completed ∧
            req2.tasks =
              data.requests[i].tasks.take j ++ data.requests[i].tasks.drop (j + 1)) ∧
    (∀ d2 r, updateRequest data requestId ru = .ok (d2, r) →
      ∃ i, ∃ hi : i < data.requests.length,
        data.requests[i].requestId = requestId ∧
        d2.requests.length = data.requests.length ∧
        (∀ k, k ≠ i → d2.requests[k]? = data.requests[k]?) ∧
        d2.requests[i]? = some r) ∧
    (∀ d2, deleteRequest data requestId = .ok d2 →
      ∃ i, ∃ hi : i < data.requests.length,
        data.requests[i].requestId = requestId ∧
        d2.requests = data.requests.take i ++ data.requests.drop (i + 1)) := by
  refine ⟨?_, ?_, ?_, ?_⟩
  · intro d2 t h
    simp only [updateTask] at h
    split at h
    case isTrue hi =>
      split at h
      case isTrue hj =>
        split at h
        · simp only [Except.ok.injEq, Prod.mk.injEq] at h
          obtain ⟨ha, hb⟩ := h
          subst hb
          subst ha
          refine ⟨_, hi, eq_of_beq (List.findIdx_getElem (w := hi)), by simp, ?_, _, hj,
            eq_of_beq (List.findIdx_getElem (w := hj)), _,
            List.getElem?_set_self hi, rfl, rfl, rfl, rfl, by simp, ?_, ?_⟩
          · intro k hk
            simp only
            exact List.getElem?_set_ne (fun e => hk e.symm)
          · intro m hm
            simp only
            exact List.getElem?_set_ne (fun e => hm e.symm)
          · simp only
            exact List.getElem?_set_self hj
        · cases h
      case isFalse => cases h
    case isFalse => cases h
  · intro d2 h
    simp only [deleteTask] at h
    split at h
    case isTrue hi =>
      split at h
      case isTrue hj =>
        simp only [Except.ok.injEq] at h
        subst h
        refine ⟨_, hi, eq_of_beq (List.findIdx_getElem (w := hi)), ?_, ?_, _, hj,
          eq_of_beq (List.findIdx_getElem (w := hj)), ?_⟩
        · simp
        · intro k hk
          simp only
          exact List.getElem?_set_ne (fun e => hk e.symm)
        · refine ⟨_, List.getElem?_set_self hi, rfl, rfl, rfl, rfl, ?_⟩
          simp only
          exact List.eraseIdx_eq_take_drop_succ _ _
      case isFalse => cases h
    case isFalse => cases h
  · intro d2 r h
    simp only [updateRequest] at h
    split at h
    case isTrue hi =>
      split at h
      · simp only [Except.ok.injEq, Prod.mk.injEq] at h
        obtain ⟨ha, hb⟩ := h
        subst hb
        subst ha
        refine ⟨_, hi, eq_of_beq (List.findIdx_getElem (w := hi)), by simp, ?_, ?_⟩
        · intro k hk
          simp only
          exact List.getElem?_set_ne (fun e => hk e.symm)
        · simp only
          exact List.getElem?_set_self hi
      · cases h
    case isFalse => cases h
  · intro d2 h
    simp only [deleteRequest] at h
    split at h
    case isTrue hi =>
      simp only [Except.ok.injEq] at h
      subst h
      exact ⟨_, hi, eq_of_beq (List.findIdx_getElem (w := hi)),
        List.eraseIdx_eq_take_drop_succ _ _⟩
    case isFalse => cases h

/-- C10 witness: the four mutators applied to `doc1` all succeed and
satisfy the frame conditions. -/
theorem crud_frame_conditions_witness :
    (updateTask doc1 "req-1" "task-1"
        { id? := none, title? := none, description? := none, done? := some true,
          approved? := none, completedDetails? := none } =
      .ok ({ requests := [{ request1 with
               tasks := [{ task1 with done := true }] }] }, { task1 with done := true }) ∧
     deleteTask doc1 "req-1" "task-1" =
      .ok { requests := [{ request1 with tasks := [] }] } ∧
     updateRequest doc1 "req-1"
        { requestId? := none, originalRequest? := none, splitDetails? := none, tasks? := none,
          completed? := some true } =
      .ok ({ requests := [{ request1 with completed := true }] },
           { request1 with completed := true }) ∧
     deleteRequest doc1 "req-1" = .ok { requests := [] }) ∧
    (∃ i, ∃ hi : i < doc1.requests.length,
      doc1.requests[i].requestId = "req-1" ∧
      ({ requests := [{ request1 with tasks := [{ task1 with done := true }] }] } :
          TasksData).requests.length = doc1.requests.length ∧
      (∀ k, k ≠ i →
        ({ requests := [{ request1 with tasks := [{ task1 with done := true }] }] } :
            TasksData).requests[k]? = doc1.requests[k]?) ∧
      ∃ j, ∃ hj : j < doc1.requests[i].tasks.length,
        (doc1.requests[i].tasks[j]).id = "task-1" ∧
        ∃ req2, ({ requests := [{ request1 with
              tasks := [{ task1 with done := true }] }] } : TasksData).requests[i]? =
            some req2 ∧
          req2.requestId = doc1.requests[i].requestId ∧
          req2.originalRequest = doc1.requests[i].originalRequest ∧
          req2.splitDetails = doc1.requests[i].splitDetails ∧
          req2.completed = doc1.requests[i].completed ∧
          req2.tasks.length = doc1.requests[i].tasks.length ∧
          (∀ m, m ≠ j → req2.tasks[m]? = doc1.requests[i].tasks[m]?) ∧
          req2.tasks[j]? = some { task1 with done := true }) :=
  ⟨⟨by decide, by decide, by decide, by decide⟩,
   (crud_frame_conditions doc1 "req-1" "task-1"
      { id? := none, title? := none, description? := none, done? := some true,
        approved? := none, completedDetails? := none }
      { requestId? := none, originalRequest? := none, splitDetails? := none, tasks? := none,
        completed? := some true }).1 _ _ (by decide)⟩

/-- C2: round-trip.  For any schema-valid document and a healthy disk
(read-back returns what was written), starting from a state where the lock
file is absent, `saveData` succeeds and a following `loadData` returns a
document deeply equal to the one saved. -/
theorem persist_load_roundtrip (ts ts2 : String) (d : TasksData) (s : FsState)
    (hlock : s.lock = false) (hvalid : validDoc d = true) :
    (saveData ts (fun c => c) d s).1 = .ok () ∧
    (loadData ts2 (fun c => c) (saveData ts (fun c => c) d s).2).1 = .ok d := by
  have hsave : saveData ts (fun c => c) d s =
      (.ok (), { createBackup ts { s with lock := true } with
                   live := some (FileData.json (Json.doc d) Fmt.pretty)
                   checksumFile := some (calculateChecksum (FileData.json (Json.doc d) Fmt.pretty))
                   tmp := none
                   tmpChecksum := none
                   lock := false }) := by
    unfold saveData
    rw [if_neg (by simp [hlock]), if_pos hvalid, if_pos rfl]
  refine ⟨by rw [hsave], ?_⟩
  rw [hsave]
  exact congrArg Prod.fst (loadData_clean ts2 (fun c => c) _ d Fmt.pretty rfl hvalid)

/-- C2 witness: persisting the empty document from a fresh file system and
re-loading it yields it back. -/
theorem persist_load_roundtrip_witness :
    emptyFs.lock = false ∧ validDoc emptyDoc = true ∧
    ((saveData "t1" (fun c => c) emptyDoc emptyFs).1 = .ok () ∧
     (loadData "t2" (fun c => c) (saveData "t1" (fun c => c) emptyDoc emptyFs).2).1 =
       .ok emptyDoc) :=
  ⟨rfl, rfl, persist_load_roundtrip "t1" "t2" emptyDoc emptyFs rfl rfl⟩

/-- C3: write-integrity.  If the checksum recomputed from the re-read
temporary file differs from the checksum computed before writing,
`saveData` fails with the integrity error, the live document file and its
checksum sidecar are unchanged, both temporary files are removed, and the
lock is released. -/
theorem write_integrity_failure_aborts (ts : String) (fault : FileData → FileData)
    (d : TasksData) (s : FsState) (hlock : s.lock = false) (hvalid : validDoc d = true)
    (hmismatch : calculateChecksum (fault (FileData.json (Json.doc d) Fmt.pretty)) ≠
      calculateChecksum (FileData.json (Json.doc d) Fmt.pretty)) :
    (saveData ts fault d s).1 = .error (.jsError "Data integrity check failed after write") ∧
    (saveData ts fault d s).2.live = s.live ∧
    (saveData ts fault d s).2.checksumFile = s.checksumFile ∧
    (saveData ts fault d s).2.tmp = none ∧
    (saveData ts fault d s).2.tmpChecksum = none ∧
    (saveData ts fault d s).2.lock = false := by
  have hsave : saveData ts fault d s =
      (.error (.jsError "Data integrity check failed after write"),
       { createBackup ts { s with lock := true } with
           tmp := none, tmpChecksum := none, lock := false }) := by
    unfold saveData
    rw [if_neg (by simp [hlock]), if_pos hvalid, if_neg hmismatch]
  have hpres := createBackup_preserves ts { s with lock := true }
  rw [hsave]
  exact ⟨rfl, hpres.1, hpres.2.1, rfl, rfl, rfl⟩

/-- C3 witness: a disk that corrupts the temporary file to blank text makes
`saveData` of the empty document fail with the integrity error, leaving a
state with the original (absent) live file and sidecar, no temporary
files, and the lock released. -/
theorem write_integrity_failure_aborts_witness :
    emptyFs.lock = false ∧ validDoc emptyDoc = true ∧
    calculateChecksum ((fun _ => FileData.blank) (FileData.json (Json.doc emptyDoc) Fmt.pretty)) ≠
      calculateChecksum (FileData.json (Json.doc emptyDoc) Fmt.pretty) ∧
    ((saveData "t1" (fun _ => FileData.blank) emptyDoc emptyFs).1 =
        .error (.jsError "Data integrity check failed after write") ∧
     (saveData "t1" (fun _ => FileData.blank) emptyDoc emptyFs).2.live = emptyFs.live ∧
     (saveData "t1" (fun _ => FileData.blank) emptyDoc emptyFs).2.checksumFile =
       emptyFs.checksumFile ∧
     (saveData "t1" (fun _ => FileData.blank) emptyDoc emptyFs).2.tmp = none ∧
     (saveData "t1" (fun _ => FileData.blank) emptyDoc emptyFs).2.tmpChecksum = none ∧
     (saveData "t1" (fun _ => FileData.blank) emptyDoc emptyFs).2.lock = false) :=
  ⟨rfl, rfl, by decide,
   write_integrity_failure_aborts "t1" (fun _ => FileData.blank) emptyDoc emptyFs rfl rfl
     (by decide)⟩

/-- C1 (code bug evaluation): the corruption-recovery contract fails on the
service's own backups.  Starting from a live file holding the pretty
serialization of the schema-valid empty document (exactly what `saveData`
writes), `createBackup` stores the checksum of that pretty text; after the
live file is corrupted to blank, `restoreFromBackup` recomputes the
checksum over the compact re-serialization `JSON.stringify(data)` of the
embedded document, the two never match, no backup restores, and `loadData`
raises instead of returning the backed-up document.  The same scenario
with a compact-serialized live file (never produced by the service)
recovers, isolating the pretty/compact checksum divergence. -/
def recoveryBase : FsState :=
  { live := some (FileData.json (Json.doc emptyDoc) Fmt.pretty), checksumFile := none,
    tmp := none, tmpChecksum := none, backups := [], lock := false }

def recoveryCorrupt : FsState :=
  { createBackup "2025-01-01T00:00:00.000Z" recoveryBase with live := some FileData.blank }

def recoveryCompactCorrupt : FsState :=
  { createBackup "2025-01-01T00:00:00.000Z"
      { recoveryBase with live := some (FileData.json (Json.doc emptyDoc) Fmt.compact) } with
    live := some FileData.blank }

theorem corruption_recovery_checksum_mismatch :
    validDoc emptyDoc = true ∧
    recoveryCorrupt.backups.map Prod.fst = ["tasks-2025-01-01T00-00-00-000Z.json"] ∧
    (∀ f ∈ recoveryCorrupt.backups, f.2.data = Json.doc emptyDoc) ∧
    recoveryCorrupt.live = some FileData.blank ∧
    restoreFromBackup recoveryCorrupt = none ∧
    (loadData "2025-01-02T00:00:00.000Z" (fun c => c) recoveryCorrupt).1 =
      .error (.api "Failed to load tasks data: Error: Empty file detected" 500) ∧
    (loadData "2025-01-02T00:00:00.000Z" (fun c => c) recoveryCorrupt).1 ≠ .ok emptyDoc ∧
    (loadData "2025-01-02T00:00:00.000Z" (fun c => c) recoveryCompactCorrupt).1 =
      .ok emptyDoc := by
  decide

/-- Embedded timestamp of a backup file name following the claim's reading
(the timestamp after the `tasks-` or `tasks-manual-` marker, before
`.json`); used only to compare the code's retention against the claim's
"most recent by embedded timestamp". -/
def specEmbeddedTimestamp (name : String) : String :=
  if strStartsWith name "tasks-manual-" then
    replaceFirst (replaceFirst name "tasks-manual-" "") ".json" ""
  else
    replaceFirst (replaceFirst name "tasks-" "") ".json" ""

/-- A backup directory with one old manual backup and ten newer automatic
backups. -/
def backupFilesEx : List String :=
  ["tasks-manual-2020-01-01T00-00-00-000Z.json",
   "tasks-2025-01-01T00-00-00-000Z.json", "tasks-2025-01-02T00-00-00-000Z.json",
   "tasks-2025-01-03T00-00-00-000Z.json", "tasks-2025-01-04T00-00-00-000Z.json",
   "tasks-2025-01-05T00-00-00-000Z.json", "tasks-2025-01-06T00-00-00-000Z.json",
   "tasks-2025-01-07T00-00-00-000Z.json", "tasks-2025-01-08T00-00-00-000Z.json",
   "tasks-2025-01-09T00-00-00-000Z.json", "tasks-2025-01-10T00-00-00-000Z.json"]

/-- C4 counterexample: the retained files are not the 10 most recent by
embedded timestamp.  With 11 matching files, `cleanupOldBackups` keeps the
manual backup whose embedded timestamp (2020) is strictly older than that
of the deleted automatic backup (2025-01-01): the sort key of a manual
backup starts with `manual-`, which sorts above every digit-initial
timestamp key. -/
theorem cleanup_retention_counterexample :
    backupFilesEx.Nodup ∧
    (backupFilesEx.filter isBackupName).length = 11 ∧
    "tasks-manual-2020-01-01T00-00-00-000Z.json" ∈ cleanupOldBackups backupFilesEx ∧
    "tasks-2025-01-01T00-00-00-000Z.json" ∉ cleanupOldBackups backupFilesEx ∧
    (specEmbeddedTimestamp "tasks-manual-2020-01-01T00-00-00-000Z.json").data <
      (specEmbeddedTimestamp "tasks-2025-01-01T00-00-00-000Z.json").data := by
  decide

/-- C4 (amended): with more than 10 files matching the backup naming
convention, `cleanupOldBackups` leaves exactly 10 matching files, namely
the 10 greatest under descending lexicographic order of the sort key (the
name with the first `tasks-` and the first `.json` removed — for manual
backups this key starts with `manual-` and outranks every plain timestamp
key, so manual backups are preferentially retained regardless of age);
non-matching files are untouched and nothing new appears. -/
theorem cleanup_keeps_ten_greatest_keys (files : List String) (hnd : files.Nodup)
    (hlen : maxBackups < (files.filter isBackupName).length) :
    ((cleanupOldBackups files).filter isBackupName).length = maxBackups ∧
    (∀ f ∈ cleanupOldBackups files, isBackupName f = true →
      ∀ g ∈ files, isBackupName g = true → g ∉ cleanupOldBackups files →
        backupSortKey g ≤ backupSortKey f) ∧
    (∀ f ∈ files, isBackupName f = false → f ∈ cleanupOldBackups files) ∧
    (∀ f ∈ cleanupOldBackups files, f ∈ files) := by
  have hperm := List.perm_insertionSort backupLe (files.filter isBackupName)
  have hsorted := List.sorted_insertionSort backupLe (files.filter isBackupName)
  have hmnd : (files.filter isBackupName).Nodup := hnd.filter _
  have hsnd : (List.insertionSort backupLe (files.filter isBackupName)).Nodup :=
    hperm.nodup_iff.mpr hmnd
  have hsplit := List.take_append_drop maxBackups
    (List.insertionSort backupLe (files.filter isBackupName))
  have hp : List.Pairwise backupLe
      (List.take maxBackups (List.insertionSort backupLe (files.filter isBackupName)) ++
        List.drop maxBackups (List.insertionSort backupLe (files.filter isBackupName))) := by
    rw [hsplit]; exact hsorted
  have hpair := (List.pairwise_append.mp hp).2.2
  have hnodup2 : (List.take maxBackups (List.insertionSort backupLe
      (files.filter isBackupName)) ++
      List.drop maxBackups (List.insertionSort backupLe (files.filter isBackupName))).Nodup := by
    rw [hsplit]; exact hsnd
  have hdisj := (List.nodup_append.mp hnodup2).2.2
  have hdel_mem : ∀ g, g ∈ backupsToDelete files → g ∈ files.filter isBackupName := by
    intro g hg
    exact hperm.mem_iff.mp (List.drop_subset _ _ hg)
  have hcontains : ∀ (l : List String) (a : String), l.contains a = true ↔ a ∈ l := by
    intro l a
    exact List.elem_iff
  have hcontains2 : ∀ (l : List String) (a : String), l.contains a = false ↔ a ∉ l := by
    intro l a
    rw [← Bool.not_eq_true, hcontains]
  have hcleanup_mem : ∀ f, f ∈ cleanupOldBackups files ↔
      f ∈ files ∧ f ∉ backupsToDelete files := by
    intro f
    unfold cleanupOldBackups
    simp only [List.mem_filter, Bool.not_eq_true', hcontains2]
  have hmem_take : ∀ f, f ∈ files → isBackupName f = true → f ∉ backupsToDelete files →
      f ∈ List.take maxBackups (List.insertionSort backupLe (files.filter isBackupName)) := by
    intro f hf hbf hnd2
    have hms : f ∈ List.insertionSort backupLe (files.filter isBackupName) :=
      hperm.mem_iff.mpr (List.mem_filter.mpr ⟨hf, hbf⟩)
    rw [← hsplit] at hms
    rcases List.mem_append.mp hms with h | h
    · exact h
    · exact absurd h hnd2
  refine ⟨?_, ?_, ?_, ?_⟩
  · have hcomm : (cleanupOldBackups files).filter isBackupName =
        (files.filter isBackupName).filter
          (fun f => !((backupsToDelete files).contains f)) := by
      unfold cleanupOldBackups
      rw [List.filter_filter, List.filter_filter]
      exact List.filter_congr (fun a _ => Bool.and_comm _ _)
    have hfil : (List.insertionSort backupLe (files.filter isBackupName)).filter
        (fun f => !((backupsToDelete files).contains f)) =
        List.take maxBackups (List.insertionSort backupLe (files.filter isBackupName)) := by
      conv =>
        lhs
        rw [← hsplit]
      rw [List.filter_append]
      have h1 : (List.take maxBackups (List.insertionSort backupLe
          (files.filter isBackupName))).filter
          (fun f => !((backupsToDelete files).contains f)) =
          List.take maxBackups (List.insertionSort backupLe (files.filter isBackupName)) := by
        rw [List.filter_eq_self]
        intro a ha
        simp only [Bool.not_eq_true', hcontains2]
        exact fun hmem => hdisj ha hmem
      have h2 : (List.drop maxBackups (List.insertionSort backupLe
          (files.filter isBackupName))).filter
          (fun f => !((backupsToDelete files).contains f)) = [] := by
        rw [List.filter_eq_nil_iff]
        intro a ha
        simp only [Bool.not_eq_true', hcontains2, not_not]
        exact ha
      rw [h1, h2, List.append_nil]
    have hperm2 : List.Perm
        ((files.filter isBackupName).filter
          (fun f => !((backupsToDelete files).contains f)))
        (List.take maxBackups (List.insertionSort backupLe (files.filter isBackupName))) := by
      have hstep := (hperm.filter (fun f => !((backupsToDelete files).contains f))).symm
      rw [hfil] at hstep
      exact hstep
    rw [hcomm, hperm2.length_eq, List.length_take, List.length_insertionSort]
    omega
  · intro f hf hbf g hg hbg hgnot
    have hfmem := (hcleanup_mem f).mp hf
    have hftake := hmem_take f hfmem.1 hbf hfmem.2
    have hgdel : g ∈ backupsToDelete files := by
      by_contra hgd
      exact hgnot ((hcleanup_mem g).mpr ⟨hg, hgd⟩)
    exact hpair f hftake g hgdel
  · intro f hf hbf
    refine (hcleanup_mem f).mpr ⟨hf, fun hd => ?_⟩
    have := List.mem_filter.mp (hdel_mem f hd)
    rw [hbf] at this
    exact absurd this.2 (by simp)
  · intro f hf
    exact ((hcleanup_mem f).mp hf).1

/-- C4 witness: on the 11-file directory `backupFilesEx`, cleanup keeps
exactly 10 matching files, the 10 greatest by sort key. -/
theorem cleanup_keeps_ten_greatest_keys_witness :
    backupFilesEx.Nodup ∧ maxBackups < (backupFilesEx.filter isBackupName).length ∧
    (((cleanupOldBackups backupFilesEx).filter isBackupName).length = maxBackups ∧
     (∀ f ∈ cleanupOldBackups backupFilesEx, isBackupName f = true →
       ∀ g ∈ backupFilesEx, isBackupName g = true → g ∉ cleanupOldBackups backupFilesEx →
         backupSortKey g ≤ backupSortKey f) ∧
     (∀ f ∈ backupFilesEx, isBackupName f = false → f ∈ cleanupOldBackups backupFilesEx) ∧
     (∀ f ∈ cleanupOldBackups backupFilesEx, f ∈ backupFilesEx)) :=
  ⟨by decide, by decide, cleanup_keeps_ten_greatest_keys backupFilesEx (by decide) (by decide)⟩

/-- C8 counterexample: a lock file whose content parses but carries no
usable timestamp (for example `{"pid": 1}` — metadata that is readable but
invalid) does not trigger the delete-and-retry-immediately path: the `NaN`
age fails the staleness comparison, so the loop sleeps 100 ms and deletes
nothing. -/
theorem lock_invalid_metadata_counterexample :
    lockAttemptStep 0 (.held (.parsed none)) = .sleepRetry ∧
    LockStep.sleepRetry ≠ LockStep.deleteRetry ∧
    acquireLock 0 0 [.held (.parsed none), .created] =
      { outcome := .ok, sleepMs := 100, deletions := 0 } := by
  decide

/-- C8 (amended): within the acquisition deadline, an existing lock file
whose content fails to read or parse is deleted and the loop retries
immediately (no sleep, no deadline consumption); likewise when the parsed
timestamp is strictly more than 30 s old; a parsed lock whose timestamp is
fresh — or missing/unparseable, which yields a `NaN` age that fails the
staleness comparison — makes the loop sleep 100 ms before retrying. -/
theorem acquireLock_stale_handling (startTime now t : Int) (rest : List LockProbe)
    (hdl : now - startTime < lockTimeout) :
    (acquireLock startTime now (.held .bad :: rest) =
      { outcome := (acquireLock startTime now rest).outcome
        sleepMs := (acquireLock startTime now rest).sleepMs
        deletions := (acquireLock startTime now rest).deletions + 1 }) ∧
    (lockTimeout < now - t →
      acquireLock startTime now (.held (.parsed (some t)) :: rest) =
        { outcome := (acquireLock startTime now rest).outcome
          sleepMs := (acquireLock startTime now rest).sleepMs
          deletions := (acquireLock startTime now rest).deletions + 1 }) ∧
    (¬ lockTimeout < now - t →
      acquireLock startTime now (.held (.parsed (some t)) :: rest) =
        { outcome := (acquireLock startTime (now + 100) rest).outcome
          sleepMs := (acquireLock startTime (now + 100) rest).sleepMs + 100
          deletions := (acquireLock startTime (now + 100) rest).deletions }) ∧
    (acquireLock startTime now (.held (.parsed none) :: rest) =
      { outcome := (acquireLock startTime (now + 100) rest).outcome
        sleepMs := (acquireLock startTime (now + 100) rest).sleepMs + 100
        deletions := (acquireLock startTime (now + 100) rest).deletions }) := by
  refine ⟨?_, ?_, ?_, ?_⟩
  · simp [acquireLock, lockAttemptStep, hdl]
  · intro hst
    simp [acquireLock, lockAttemptStep, hdl, hst]
  · intro hst
    simp [acquireLock, lockAttemptStep, hdl, hst]
  · simp [acquireLock, lockAttemptStep, hdl]

/-- C8 witness: at instant 0 with a deadline of 30 s, a stale lock
(timestamp 40 s in the past) and an unreadable lock are deleted with no
sleep, while a fresh lock forces a 100 ms sleep. -/
theorem acquireLock_stale_handling_witness :
    ((0 : Int) - 0 < lockTimeout) ∧
    ((acquireLock 0 0 (.held .bad :: [.created]) =
      { outcome := (acquireLock 0 0 [.created]).outcome
        sleepMs := (acquireLock 0 0 [.created]).sleepMs
        deletions := (acquireLock 0 0 [.created]).deletions + 1 }) ∧
    (lockTimeout < (0 : Int) - (-40000) →
      acquireLock 0 0 (.held (.parsed (some (-40000))) :: [.created]) =
        { outcome := (acquireLock 0 0 [.created]).outcome
          sleepMs := (acquireLock 0 0 [.created]).sleepMs
          deletions := (acquireLock 0 0 [.created]).deletions + 1 }) ∧
    (¬ lockTimeout < (0 : Int) - (-40000) →
      acquireLock 0 0 (.held (.parsed (some (-40000))) :: [.created]) =
        { outcome := (acquireLock 0 (0 + 100) [.created]).outcome
          sleepMs := (acquireLock 0 (0 + 100) [.created]).sleepMs + 100
          deletions := (acquireLock 0 (0 + 100) [.created]).deletions }) ∧
    (acquireLock 0 0 (.held (.parsed none) :: [.created]) =
      { outcome := (acquireLock 0 (0 + 100) [.created]).outcome
        sleepMs := (acquireLock 0 (0 + 100) [.created]).sleepMs + 100
        deletions := (acquireLock 0 (0 + 100) [.created]).deletions })) :=
  ⟨by decide, acquireLock_stale_handling 0 0 (-40000) [.created] (by decide)⟩

end TaskEditor
